import Mathlib

/-!
Shallow embedding of the audio-processing pipeline of the kwik-med-emr backend:
the Recording lifecycle (app/services/recording_service.py,
app/api/endpoints/recordings.py), the transcription-provider router
(app/services/audio_service.py), segment synthesis from raw words, and the
speaker-attribution logic.  External provider calls (AssemblyAI, OpenAI, Pindo)
are modelled by explicit outcome values; database writes are modelled by pure
state passing, with the ordered list of status writes kept as an explicit trace.
-/

namespace KwikMed

/-- RecordingStatusEnum from app/models/recording.py. -/
inductive RecordingStatusEnum
  | RECORDING
  | STOPPED
  | UPLOADED
  | PROCESSING
  | TRANSCRIBING
  | DIARIZING
  | COMPLETED
  | FAILED
deriving DecidableEq, Repr

/-- LanguageEnum from app/models/recording.py. -/
inductive LanguageEnum
  | ENGLISH
  | FRENCH
  | SWAHILI
  | KINYARWANDA
deriving DecidableEq, Repr

/-- SessionStatusEnum from app/models/session.py. -/
inductive SessionStatusEnum
  | ACTIVE
  | COMPLETED
  | CANCELLED
deriving DecidableEq, Repr

/-- SpeakerEnum from app/schemas/recording.py. -/
inductive SpeakerEnum
  | practitioner
  | patient
  | unknown
deriving DecidableEq, Repr

/-- TranscriptSegment from app/schemas/recording.py.  Times are seconds,
modelled as rationals (the source uses Python floats whose values here are
exact decimal fractions). -/
structure TranscriptSegment where
  text : String
  speaker : SpeakerEnum
  start_time : ℚ
  end_time : ℚ
  confidence : Option ℚ
deriving DecidableEq, Repr

/-- The dual-language payload written to Recording.additional_data by
AudioService._transcribe_kinyarwanda (audio_service.py lines 215-220). -/
structure AdditionalData where
  original_language : String
  translated_language : String
  original_text : String
  translated_text : String
deriving DecidableEq, Repr

/-- The Recording row (app/models/recording.py).  Nullable columns are
Options; file_name and file_path are non-nullable strings (empty string
plays the role of Python falsiness for them, matching the code which
creates a Recording with file_path = ""). -/
structure Recording where
  session_id : Nat
  file_name : String
  file_path : String
  language : LanguageEnum
  status : RecordingStatusEnum
  duration_seconds : Option ℚ
  file_size_bytes : Option Nat
  transcript : Option String
  transcript_segments : Option (List TranscriptSegment)
  processing_error : Option String
  additional_data : Option AdditionalData
deriving DecidableEq, Repr

/-- The configuration values of app/core/config.py consumed by the pipeline
(defaults of the Settings class). -/
def settings_MAX_FILE_SIZE : Nat := 100 * 1024 * 1024

/-- Default ALLOWED_AUDIO_EXTENSIONS from app/core/config.py. -/
def settings_ALLOWED_AUDIO_EXTENSIONS : List String :=
  ["wav", "mp3", "m4a", "flac", "aac"]

/-! ### Filename validation (AudioService.validate_audio_file)

The source is `filename.lower().split('.')[-1] in settings.ALLOWED_AUDIO_EXTENSIONS`
(audio_service.py lines 446-449).  `pySplit` is a character-level translation
of Python `str.split(sep)` for a single-character separator, and `pyLower`
of `str.lower` (per-character lowercasing). -/

/-- Python `str.split(sep)` on a character list: always returns a non-empty
list of chunks; consecutive separators yield empty chunks. -/
def pySplit (sep : Char) : List Char → List (List Char)
  | [] => [[]]
  | c :: cs =>
    match pySplit sep cs with
    | [] => [[]]
    | h :: t => if c = sep then [] :: h :: t else (c :: h) :: t

/-- Python `str.lower()`: lowercase each character. -/
def pyLower (s : String) : String := String.mk (s.toList.map Char.toLower)

/-- Python `str.strip()`: drop whitespace from both ends. -/
def pyStrip (s : String) : String :=
  String.mk (((s.toList.dropWhile Char.isWhitespace).reverse.dropWhile
    Char.isWhitespace).reverse)

/-- AudioService.validate_audio_file (audio_service.py lines 446-449):
`filename.lower().split('.')[-1] in settings.ALLOWED_AUDIO_EXTENSIONS`. -/
def validate_audio_file (filename : String) : Bool :=
  decide (String.mk ((pySplit '.' (pyLower filename).toList).getLastD [])
            ∈ settings_ALLOWED_AUDIO_EXTENSIONS)

/-- The specification-level reading of the extension: the substring of the
lowercased filename after its last dot (the whole lowercased filename when it
contains no dot). -/
def specExtension (filename : String) : String :=
  String.mk (((pyLower filename).toList.reverse.takeWhile (fun c => c ≠ '.')).reverse)


/-! ### AudioService: provider environment and outcomes

The AudioService instance (audio_service.py) holds two capability flags set in
`__init__`: `use_assemblyai` (USE_ASSEMBLYAI with an available SDK and key) and
`openai_client` (an OpenAI client, or None).  `ASSEMBLYAI_AVAILABLE` is the
module-level import flag, checked again at routing time (line 95), and
`ENABLE_SPEAKER_DIARIZATION` is read from settings. -/

structure AudioEnv where
  use_assemblyai : Bool
  assemblyai_available : Bool
  openai_client : Bool
  enable_speaker_diarization : Bool
deriving DecidableEq, Repr

/-- One word returned by AssemblyAI (`transcript.words`): text plus start/end
timestamps in milliseconds. -/
structure Word where
  text : String
  start : Int
  end_ : Int
deriving DecidableEq, Repr

/-- One utterance returned by AssemblyAI (`transcript.utterances`): text,
provider speaker label, start/end in milliseconds, confidence. -/
structure Utterance where
  text : String
  speaker : String
  start : Int
  end_ : Int
  confidence : ℚ
deriving DecidableEq, Repr

/-- One segment returned by OpenAI Whisper verbose output. -/
structure WhisperSegment where
  text : String
  start : ℚ
  end_ : ℚ
  avg_logprob : Option ℚ
deriving DecidableEq, Repr

/-- Outcome of the AssemblyAI call inside _transcribe_with_assemblyai:
the SDK call raises, or returns an error-status transcript, or succeeds with
text, utterances and words (Python truthiness makes a None list and an empty
list indistinguishable here, so plain lists suffice). -/
inductive AaiOutcome
  | raises (msg : String)
  | errorStatus (err : String)
  | ok (text : String) (utterances : List Utterance) (words : List Word)
deriving DecidableEq, Repr

/-- Outcome of the OpenAI Whisper call inside _transcribe_with_openai. -/
inductive OpenAiOutcome
  | raises (msg : String)
  | ok (text : String) (segments : List WhisperSegment)
deriving DecidableEq, Repr

/-- Outcome of the Pindo HTTP call inside _transcribe_kinyarwanda:
the request raises, or returns a non-200 status, or returns a parsed
transcript text (none when no text field could be extracted). -/
inductive PindoOutcome
  | raises (msg : String)
  | httpError (code : Nat) (body : String)
  | responded (text : Option String)
deriving DecidableEq, Repr

/-- Outcome of the OpenAI chat call inside _translate_to_english. -/
inductive TranslateOutcome
  | raises (msg : String)
  | ok (text : String)
deriving DecidableEq, Repr

/-- All provider outcomes for one processing run. -/
structure ProviderEnv where
  aai : AaiOutcome
  oai : OpenAiOutcome
  pindo : PindoOutcome
  translate : TranslateOutcome
deriving DecidableEq, Repr

/-- The provider actually invoked by an attempt, for tracing the router. -/
inductive ProviderTag
  | assemblyai
  | openaiWhisper
  | pindoApi
deriving DecidableEq, Repr

/-- Python truthiness of an optional string (`if transcript:`): false for
None and for the empty string. -/
def optTruthy : Option String → Bool
  | none => false
  | some s => decide (s ≠ "")

/-! ### Segment synthesis from raw words (audio_service.py lines 299-330)

When diarization is off (or no utterances came back) and words are available,
_transcribe_with_assemblyai groups consecutive words into segments.  The loop
state `current_segment` and the emission points are modelled exactly; a chunk
records the words of one emitted segment together with the `start`/`end`
millisecond values the source tracks. -/

structure CurSeg where
  words : List Word
  start_ : Option Int
  end_ : Option Int
deriving DecidableEq, Repr

structure Chunk where
  words : List Word
  start_ : Int
  end_ : Int
deriving DecidableEq, Repr

/-- One iteration of the word loop: set start on the first word, append the
word, update end; emit the segment when the elapsed time exceeds 10000 ms or
the word count exceeds 50 (both checked after appending). -/
def segStep (p : List Chunk × CurSeg) (w : Word) : List Chunk × CurSeg :=
  let s := p.2.start_.getD w.start
  let ws := p.2.words ++ [w]
  if w.end_ - s > 10000 ∨ ws.length > 50 then
    (p.1 ++ [⟨ws, s, w.end_⟩], ⟨[], none, none⟩)
  else
    (p.1, ⟨ws, some s, some w.end_⟩)

/-- The word loop itself: fold over the words from the empty state. -/
def segFold (ws : List Word) : List Chunk × CurSeg :=
  ws.foldl segStep ([], ⟨[], none, none⟩)

/-- Run the loop and flush the trailing partial segment (lines 322-330);
the trailing segment's start/end are set whenever its word list is
non-empty, so the `getD 0` defaults are never exercised. -/
def chunksOfWords (ws : List Word) : List Chunk :=
  if (segFold ws).2.words = [] then (segFold ws).1
  else (segFold ws).1
    ++ [⟨(segFold ws).2.words, (segFold ws).2.start_.getD 0, (segFold ws).2.end_.getD 0⟩]

/-- Render one chunk as the TranscriptSegment the source appends
(text joined with spaces, speaker UNKNOWN, ms→s conversion, confidence 0.8). -/
def renderChunk (c : Chunk) : TranscriptSegment :=
  { text := String.intercalate " " (c.words.map Word.text)
    speaker := SpeakerEnum.unknown
    start_time := (c.start_ : ℚ) / 1000
    end_time := (c.end_ : ℚ) / 1000
    confidence := some (4/5) }

/-- The full synthesis of segments from raw words. -/
def createSegmentsFromWords (ws : List Word) : List TranscriptSegment :=
  (chunksOfWords ws).map renderChunk

/-- Verification predicate: between loop iterations the current segment is
within both bounds — its start field points at its first word, it holds at
most 50 words, and every held word ends within 10000 ms of the first word's
start. -/
def CurOk (cur : CurSeg) : Prop :=
  match cur.words.head? with
  | none => cur.words = [] ∧ cur.start_ = none
  | some a => cur.start_ = some a.start ∧ cur.words.length ≤ 50
      ∧ ∀ b ∈ cur.words, b.end_ - a.start ≤ 10000

/-- Verification predicate for an emitted chunk: non-empty, at most 51
words, and within both bounds once its final word is removed. -/
def ChunkOk (c : Chunk) : Prop :=
  c.words ≠ [] ∧ c.words.length ≤ 51 ∧ c.words.dropLast.length ≤ 50
  ∧ ∀ a : Word, c.words.dropLast.head? = some a →
      ∀ b ∈ c.words.dropLast, b.end_ - a.start ≤ 10000

/-! ### AssemblyAI speaker-label mapping (audio_service.py lines 281-288) -/

/-- Label-to-role mapping used for AssemblyAI utterances: the label named "A"
is the practitioner, the label named "B" the patient, anything else unknown. -/
def speakerForLabel (s : String) : SpeakerEnum :=
  if s = "A" then SpeakerEnum.practitioner
  else if s = "B" then SpeakerEnum.patient
  else SpeakerEnum.unknown

/-- Render one AssemblyAI utterance as a TranscriptSegment (lines 290-296). -/
def renderUtterance (u : Utterance) : TranscriptSegment :=
  { text := u.text
    speaker := speakerForLabel u.speaker
    start_time := (u.start : ℚ) / 1000
    end_time := (u.end_ : ℚ) / 1000
    confidence := some u.confidence }

/-! ### The three transcription routines and the router
(audio_service.py lines 84-406) -/

/-- Result of one transcription routine / of the router: the mutated
Recording row, the Python return value, the ordered list of status values
written to the row, and the providers invoked. -/
structure TranscribeResult where
  recording : Recording
  result : Option String
  writes : List RecordingStatusEnum
  attempts : List ProviderTag
deriving DecidableEq, Repr

/-- AudioService._translate_to_english (lines 408-439): unavailable client and
a raised exception both degrade to the original text with an explicit marker;
a successful chat completion is stripped. -/
def translate_to_english (env : AudioEnv) (o : TranslateOutcome) (kinyarwanda_text : String) :
    String :=
  if ¬ env.openai_client then "[Translation unavailable] " ++ kinyarwanda_text
  else
    match o with
    | .ok t => pyStrip t
    | .raises _ => "[Translation failed] " ++ kinyarwanda_text

/-- AudioService._transcribe_kinyarwanda (lines 116-237). -/
def transcribe_kinyarwanda (env : AudioEnv) (pindo : PindoOutcome)
    (tr : TranslateOutcome) (recording : Recording) : TranscribeResult :=
  match pindo with
  | .raises msg =>
      { recording :=
          { recording with
            status := .FAILED
            processing_error := some ("Pindo API error: " ++ msg) }
        result := none, writes := [.FAILED], attempts := [.pindoApi] }
  | .httpError code body =>
      { recording :=
          { recording with
            status := .FAILED
            processing_error := some ("Pindo API error: " ++ toString code
              ++ " - " ++ body.take 200) }
        result := none, writes := [.FAILED], attempts := [.pindoApi] }
  | .responded t =>
      match t with
      | none =>
          { recording :=
              { recording with
                status := .FAILED
                processing_error := some "Empty transcription from Pindo API" }
            result := none, writes := [.FAILED], attempts := [.pindoApi] }
      | some raw =>
          if raw = "" ∨ pyStrip raw = "" then
            { recording :=
                { recording with
                  status := .FAILED
                  processing_error := some "Empty transcription from Pindo API" }
              result := none, writes := [.FAILED], attempts := [.pindoApi] }
          else
            let transcript_text := pyStrip raw
            let english_translation := translate_to_english env tr transcript_text
            let segments : List TranscriptSegment :=
              [{ text := transcript_text, speaker := .unknown, start_time := 0,
                 end_time := recording.duration_seconds.getD 0, confidence := some (17/20) }]
            let combined_transcript :=
              "English: " ++ english_translation ++ "\n\nKinyarwanda: " ++ transcript_text
            { recording := { recording with
                transcript := some combined_transcript
                transcript_segments := some segments
                status := .COMPLETED
                processing_error := none
                additional_data := some
                  { original_language := "KINYARWANDA"
                    translated_language := "ENGLISH"
                    original_text := transcript_text
                    translated_text := english_translation } }
              result := some transcript_text
              writes := [.COMPLETED], attempts := [.pindoApi] }

/-- AudioService._transcribe_with_assemblyai (lines 239-352).  Every provider
outcome, including a raised exception, is handled inside this routine (the
`except` at lines 347-352 turns a raise into a FAILED row and a None return),
so the routine never propagates an exception to its caller. -/
def transcribe_with_assemblyai (env : AudioEnv) (o : AaiOutcome) (recording : Recording) :
    TranscribeResult :=
  match o with
  | .raises msg =>
      { recording := { recording with status := .FAILED, processing_error := some msg }
        result := none, writes := [.FAILED], attempts := [.assemblyai] }
  | .errorStatus err =>
      { recording :=
          { recording with
            status := .FAILED
            processing_error := some ("AssemblyAI error: " ++ err) }
        result := none, writes := [.FAILED], attempts := [.assemblyai] }
  | .ok text utterances words =>
      let segments : List TranscriptSegment :=
        if env.enable_speaker_diarization ∧ utterances ≠ [] then
          utterances.map renderUtterance
        else if words ≠ [] then createSegmentsFromWords words
        else []
      { recording := { recording with
          transcript := some text
          transcript_segments := if segments = [] then none else some segments
          status := .COMPLETED
          processing_error := none }
        result := some text
        writes := [.COMPLETED], attempts := [.assemblyai] }

/-- AudioService._transcribe_with_openai (lines 354-406). -/
def transcribe_with_openai (env : AudioEnv) (o : OpenAiOutcome) (recording : Recording) :
    TranscribeResult :=
  if ¬ env.openai_client then
    { recording :=
        { recording with
          status := .FAILED
          processing_error := some "OpenAI API key not configured" }
      result := none, writes := [.FAILED], attempts := [.openaiWhisper] }
  else
    match o with
    | .raises msg =>
        { recording := { recording with status := .FAILED, processing_error := some msg }
          result := none, writes := [.FAILED], attempts := [.openaiWhisper] }
    | .ok text whisperSegments =>
        let segments : List TranscriptSegment :=
          whisperSegments.map (fun s =>
            { text := s.text, speaker := .unknown, start_time := s.start,
              end_time := s.end_, confidence := s.avg_logprob })
        { recording := { recording with
            transcript := some text
            transcript_segments := if segments = [] then none else some segments
            status := .COMPLETED
            processing_error := none }
          result := some text
          writes := [.COMPLETED], attempts := [.openaiWhisper] }

/-- AudioService.transcribe_audio (lines 84-114): the language-keyed router.
KINYARWANDA goes to Pindo.  ENGLISH/FRENCH/SWAHILI go to AssemblyAI when
`use_assemblyai and ASSEMBLYAI_AVAILABLE`; the surrounding try/except with an
OpenAI fallback (lines 97-105) never fires because
_transcribe_with_assemblyai returns normally on every provider outcome.
Otherwise OpenAI is used directly when a client exists; with no service at
all the routine returns None without touching the row. -/
def transcribe_audio (env : AudioEnv) (penv : ProviderEnv) (recording : Recording) :
    TranscribeResult :=
  match recording.language with
  | .KINYARWANDA => transcribe_kinyarwanda env penv.pindo penv.translate recording
  | _ =>
      if env.use_assemblyai ∧ env.assemblyai_available then
        transcribe_with_assemblyai env penv.aai recording
      else if env.openai_client then
        transcribe_with_openai env penv.oai recording
      else
        { recording := recording, result := none, writes := [], attempts := [] }

/-- Result of the background task: final row, ordered status writes,
provider attempts. -/
structure ProcessResult where
  recording : Recording
  writes : List RecordingStatusEnum
  attempts : List ProviderTag
deriving DecidableEq, Repr

/-- process_audio_complete (app/api/endpoints/recordings.py lines 155-204):
writes PROCESSING then TRANSCRIBING, runs the router, and on a truthy
transcript writes DIARIZING (when diarization is enabled;
perform_speaker_diarization itself is a stub returning True) followed by
COMPLETED; on a falsy transcript writes FAILED. -/
def process_audio_complete (env : AudioEnv) (penv : ProviderEnv) (recording : Recording) :
    ProcessResult :=
  let rec1 := { recording with status := .TRANSCRIBING }
  let t := transcribe_audio env penv rec1
  if optTruthy t.result then
    let diarWrites : List RecordingStatusEnum :=
      if env.enable_speaker_diarization then [.DIARIZING] else []
    { recording := { t.recording with status := .COMPLETED }
      writes := [.PROCESSING, .TRANSCRIBING] ++ t.writes ++ diarWrites ++ [.COMPLETED]
      attempts := t.attempts }
  else
    { recording := { t.recording with status := .FAILED }
      writes := [.PROCESSING, .TRANSCRIBING] ++ t.writes ++ [.FAILED]
      attempts := t.attempts }

/-! ### Repository layer: sessions, recordings, start/stop/upload/retry
(app/repositories/recording_repository.py, app/services/recording_service.py,
app/api/endpoints/recordings.py) -/

structure RecordingRow where
  rid : Nat
  row : Recording
deriving DecidableEq, Repr

structure SessionRow where
  sid : Nat
  status : SessionStatusEnum
deriving DecidableEq, Repr

structure DB where
  sessions : List SessionRow
  recordings : List RecordingRow
  next_id : Nat
deriving DecidableEq, Repr

/-- RecordingRepository.get_by_id. -/
def get_by_id (db : DB) (rid : Nat) : Option RecordingRow :=
  db.recordings.find? (fun r => decide (r.rid = rid))

/-- RecordingRepository.get_active_recording_by_session (lines 31-40):
first recording of the session whose status is RECORDING. -/
def get_active_recording_by_session (db : DB) (sid : Nat) : Option RecordingRow :=
  db.recordings.find?
    (fun r => decide (r.row.session_id = sid ∧ r.row.status = .RECORDING))

/-- BaseRepository.update keyed by id: None when the row does not exist. -/
def update_recording (db : DB) (rid : Nat) (f : Recording → Recording) :
    Option (DB × Recording) :=
  match get_by_id db rid with
  | none => none
  | some r =>
      some
        ({ db with
            recordings := db.recordings.map
              (fun q => if q.rid = rid then { q with row := f q.row } else q) },
         f r.row)

/-- The row RecordingService.start_recording creates: RecordingCreate sets
session_id, a generated file_name and an empty file_path; every other column
takes its model default (status RECORDING, language ENGLISH).  The timestamp
inside the generated name is outside the model. -/
def newRecording (sid : Nat) : Recording :=
  { session_id := sid
    file_name := "recording_" ++ toString sid ++ ".wav"
    file_path := ""
    language := .ENGLISH
    status := .RECORDING
    duration_seconds := none
    file_size_bytes := none
    transcript := none
    transcript_segments := none
    processing_error := none
    additional_data := none }

inductive StartResult
  | sessionNotFound
  | sessionNotActive
  | alreadyActiveRecording
  | ok (db : DB) (rid : Nat)
deriving DecidableEq, Repr

/-- RecordingService.start_recording (recording_service.py lines 25-49). -/
def start_recording (db : DB) (sid : Nat) : StartResult :=
  match db.sessions.find? (fun s => decide (s.sid = sid)) with
  | none => .sessionNotFound
  | some s =>
      if s.status ≠ .ACTIVE then .sessionNotActive
      else
        match get_active_recording_by_session db sid with
        | some _ => .alreadyActiveRecording
        | none =>
            .ok
              { db with
                recordings := db.recordings ++ [⟨db.next_id, newRecording sid⟩]
                next_id := db.next_id + 1 }
              db.next_id

inductive StopResult
  | notFound
  | notActive
  | ok (db : DB)
deriving DecidableEq, Repr

/-- RecordingService.stop_recording (recording_service.py lines 51-66). -/
def stop_recording (db : DB) (rid : Nat) : StopResult :=
  match get_by_id db rid with
  | none => .notFound
  | some r =>
      if r.row.status ≠ .RECORDING then .notActive
      else
        match update_recording db rid (fun q => { q with status := .STOPPED }) with
        | none => .notFound
        | some (db', _) => .ok db'

/-- The synchronous client-facing lifecycle calls, for stating the
at-most-one-RECORDING invariant over arbitrary call sequences. -/
inductive LifecycleOp
  | startOp (sid : Nat)
  | stopOp (rid : Nat)
deriving DecidableEq, Repr

def applyOp (db : DB) : LifecycleOp → DB
  | .startOp sid =>
      match start_recording db sid with
      | .ok db' _ => db'
      | _ => db
  | .stopOp rid =>
      match stop_recording db rid with
      | .ok db' => db'
      | _ => db

def runOps (db : DB) (ops : List LifecycleOp) : DB := ops.foldl applyOp db

/-- At most one Recording of each session is in status RECORDING. -/
def atMostOneActive (db : DB) : Prop :=
  ∀ sid : Nat,
    (db.recordings.countP
      (fun r => decide (r.row.session_id = sid ∧ r.row.status = .RECORDING))) ≤ 1

/-! ### Upload (service and endpoint) -/

/-- Python exceptions surfaced by RecordingService.upload_audio_file. -/
inductive UploadExc
  | valueError (msg : String)
  | attributeError (msg : String)
deriving DecidableEq, Repr

/-- RecordingService.upload_audio_file (recording_service.py lines 97-121).
A missing recording returns None (`.ok none`).  A recording in the wrong
state raises ValueError.  After that, lines 113 and 116 both read
`audio_service.settings`, an attribute the AudioService instance does not
have (the config object is a module-level global of audio_service.py, not an
instance attribute), so an AttributeError is raised before the service can
ever return the recording: the success return at line 121 is unreachable. -/
def service_upload_audio_file (db : DB) (rid : Nat) (file_content_size : Nat)
    (filename : String) : Except UploadExc (Option Recording) :=
  match get_by_id db rid with
  | none => .ok none
  | some r =>
      if r.row.status ≠ .RECORDING ∧ r.row.status ≠ .STOPPED then
        .error (.valueError "Recording is not in a valid state for upload")
      else if ¬ validate_audio_file filename then
        .error (.attributeError "AudioService object has no attribute settings")
      else
        .error (.attributeError "AudioService object has no attribute settings")

inductive HttpStatus
  | badRequest400
  | notFound404
  | tooLarge413
  | serverError500
deriving DecidableEq, Repr

structure HttpFailure where
  status : HttpStatus
  detail : String
deriving DecidableEq, Repr

/-- The upload endpoint (recordings.py lines 65-152): size check against the
real settings first (413), then the service validation (ValueError maps to
400 here since none of the reachable messages contains "not found";
any other exception, in particular the AttributeError, falls to the outer
handler and becomes a 500), then file save and repository update. -/
def endpoint_upload_audio_file (db : DB) (rid : Nat) (file_size : Nat)
    (filename : String) : Except HttpFailure (DB × Recording) :=
  if file_size > settings_MAX_FILE_SIZE then
    .error ⟨.tooLarge413, "File too large"⟩
  else
    match service_upload_audio_file db rid file_size filename with
    | .error (.valueError m) => .error ⟨.badRequest400, m⟩
    | .error (.attributeError m) =>
        .error ⟨.serverError500, "Failed to upload file: " ++ m⟩
    | .ok _ =>
        match update_recording db rid (fun q =>
          { q with
            file_name := filename
            file_path := "uploads/" ++ filename
            file_size_bytes := some file_size
            status := .UPLOADED }) with
        | none => .error ⟨.serverError500, "Failed to update recording in database"⟩
        | some (db', r') => .ok (db', r')

inductive InitiateResult
  | notFound
  | invalidState (msg : String)
  | ok (db : DB) (recording : Recording)
deriving DecidableEq, Repr

/-- RecordingService.initiate_transcription (recording_service.py lines
123-141): the retry entry point.  Requires status STOPPED or FAILED and an
associated file; then writes status PROCESSING — and nothing else. -/
def initiate_transcription (db : DB) (rid : Nat) : InitiateResult :=
  match get_by_id db rid with
  | none => .notFound
  | some r =>
      if r.row.status ≠ .STOPPED ∧ r.row.status ≠ .FAILED then
        .invalidState "Recording is not ready for transcription"
      else if r.row.file_path = "" ∨ r.row.file_name = "" then
        .invalidState "No audio file associated with this recording"
      else
        match update_recording db rid (fun q => { q with status := .PROCESSING }) with
        | none => .notFound
        | some (db', r') => .ok db' r'

/-! ### DiarizationMapper (spec §4.3)

The repository delegates diarization to the provider (AssemblyAI returns
utterances already labelled, and AudioService.perform_speaker_diarization is a
stub); no interval-overlap mapper exists under the source tree.  The
definitions below are therefore modelled from the spec. -/

/-- Modelled from the spec: SpeakerTurn (§3) — a provider-reported time
interval attributed to one opaque speaker label; no implementation exists in
the source tree. -/
structure SpeakerTurn where
  speaker_label : String
  start_time : ℚ
  end_time : ℚ
deriving DecidableEq, Repr

/-- Modelled from the spec: the overlap of a segment interval with one turn,
`max(0, min(s.end, t.end) − max(s.start, t.start))` (§4.3 step 1). -/
def turnOverlap (s : TranscriptSegment) (t : SpeakerTurn) : ℚ :=
  max 0 (min s.end_time t.end_time - max s.start_time t.start_time)

/-- Modelled from the spec: accumulate an overlap value under a label,
keeping labels in first-encounter order (§4.3 step 2). -/
def addOverlap (acc : List (String × ℚ)) (lab : String) (v : ℚ) :
    List (String × ℚ) :=
  match acc with
  | [] => [(lab, v)]
  | (l, w) :: rest =>
      if l = lab then (l, w + v) :: rest else (l, w) :: addOverlap rest lab v

/-- Modelled from the spec: per-label accumulated overlap of a segment with a
turn list, labels listed in first-encounter (turn-iteration) order. -/
def overlapTotals (s : TranscriptSegment) (turns : List SpeakerTurn) :
    List (String × ℚ) :=
  turns.foldl (fun acc t => addOverlap acc t.speaker_label (turnOverlap s t)) []

/-- Modelled from the spec: pick the entry with the maximum value, ties broken
in favour of the earlier entry (§4.3 step 3). -/
def pickBest : List (String × ℚ) → Option (String × ℚ)
  | [] => none
  | p :: rest =>
      match pickBest rest with
      | none => some p
      | some q => if q.2 > p.2 then some q else some p

/-- Modelled from the spec: the dominant speaker label of a segment, `none`
(meaning UNKNOWN) when no turn overlaps the segment at all (§4.3 step 4). -/
def dominantSpeakerLabel (s : TranscriptSegment) (turns : List SpeakerTurn) :
    Option String :=
  match pickBest (overlapTotals s turns) with
  | none => none
  | some (lab, v) => if v > 0 then some lab else none

/-- Sum of the overlaps of the turns carrying one given label. -/
def labelOverlapSum (s : TranscriptSegment) (turns : List SpeakerTurn)
    (lab : String) : ℚ :=
  ((turns.filter (fun t => t.speaker_label == lab)).map (turnOverlap s)).sum

/-- Value stored for a label in an accumulation list (0 when absent;
addOverlap keeps at most one entry per label, so first match is the value). -/
def lookupTotal : List (String × ℚ) → String → ℚ
  | [], _ => 0
  | p :: rest, lab => if p.1 = lab then p.2 else lookupTotal rest lab

/-- Verification predicate: some transcription service is configured for the
recording's language (otherwise transcribe_audio returns None without
touching the row, and the task sets FAILED with no error detail). -/
def ServiceConfigured (env : AudioEnv) (recording : Recording) : Prop :=
  recording.language = .KINYARWANDA
    ∨ (env.use_assemblyai = true ∧ env.assemblyai_available = true)
    ∨ env.openai_client = true

/-- Verification predicate: raised provider errors carry a non-empty message
and successful transcriptions carry a non-empty text (a provider returning an
empty text makes the task fail the row without an error detail, and a raised
empty message would be stored verbatim). -/
def ProvOk (penv : ProviderEnv) : Prop :=
  (∀ m, penv.aai = .raises m → m ≠ "")
  ∧ (∀ t u w, penv.aai = .ok t u w → t ≠ "")
  ∧ (∀ m, penv.oai = .raises m → m ≠ "")
  ∧ (∀ t s, penv.oai = .ok t s → t ≠ "")

/-! ### Concrete fixtures for witnesses and counterexamples -/

def exRecordingEng : Recording :=
  { session_id := 1
    file_name := "consult.wav"
    file_path := "uploads/consult.wav"
    language := .ENGLISH
    status := .UPLOADED
    duration_seconds := some 30
    file_size_bytes := some 1000
    transcript := none
    transcript_segments := none
    processing_error := none
    additional_data := none }

def exRecordingKin : Recording :=
  { exRecordingEng with language := .KINYARWANDA }

def exFailedRecording : Recording :=
  { exRecordingEng with
    status := .FAILED
    processing_error := some "AssemblyAI error: boom" }

def exDB2 : DB :=
  { sessions := [⟨1, .ACTIVE⟩], recordings := [⟨1, exFailedRecording⟩], next_id := 2 }

def envAll : AudioEnv :=
  { use_assemblyai := true, assemblyai_available := true
    openai_client := true, enable_speaker_diarization := true }

def envNoDiar : AudioEnv :=
  { envAll with enable_speaker_diarization := false }

def exUtterancesXYZ : List Utterance :=
  [⟨"good morning", "X", 0, 1000, 9/10⟩,
   ⟨"hello doctor", "Y", 1000, 2000, 9/10⟩,
   ⟨"I am the nurse", "Z", 2000, 3000, 9/10⟩]

def exWordsLong : List Word :=
  [⟨"hello", 0, 4000⟩, ⟨"there", 11000, 12000⟩]

def exRecordingFresh : Recording :=
  { exRecordingEng with status := .RECORDING }

def exDB1 : DB :=
  { sessions := [⟨1, .ACTIVE⟩], recordings := [⟨1, exRecordingFresh⟩], next_id := 2 }

def exDBInactive : DB :=
  { sessions := [⟨1, .COMPLETED⟩], recordings := [], next_id := 1 }

def exPenvAaiRaises : ProviderEnv :=
  { aai := .raises "network error", oai := .ok "fallback text" []
    pindo := .responded (some "irrelevant"), translate := .ok "irrelevant" }

def exPenvPindoRaises : ProviderEnv :=
  { aai := .ok "irrelevant" [] [], oai := .ok "irrelevant" []
    pindo := .raises "timeout", translate := .ok "irrelevant" }

def exPenvAaiOk : ProviderEnv :=
  { aai := .ok "hello world" exUtterancesXYZ [], oai := .ok "irrelevant" []
    pindo := .responded (some "irrelevant"), translate := .ok "irrelevant" }

def exSeg1020 : TranscriptSegment :=
  { text := "segment", speaker := .unknown, start_time := 10, end_time := 20,
    confidence := none }

def exTurnA : SpeakerTurn := ⟨"A", 9, 15⟩

def exTurnB : SpeakerTurn := ⟨"B", 15, 21⟩

/-! ## Theorems

Helper lemmas first, then one theorem per claim (with witnesses and
counterexamples as separate closed theorems). -/

/-! Helper lemmas connecting `pySplit`'s last chunk to `specExtension`. -/

theorem pySplit_ne_nil (sep : Char) (l : List Char) : pySplit sep l ≠ [] := by
  cases l with
  | nil => simp [pySplit]
  | cons c cs =>
    simp only [pySplit]
    rcases h : pySplit sep cs with _ | ⟨h', t⟩
    · simp
    · by_cases hc : c = sep <;> simp [hc]

theorem takeWhile_append_of_forall {p : Char → Bool} {xs : List Char} (ys : List Char)
    (h : ∀ x ∈ xs, p x = true) : (xs ++ ys).takeWhile p = xs ++ ys.takeWhile p := by
  induction xs with
  | nil => simp
  | cons a as ih =>
    have ha : p a = true := h a (by simp)
    simp only [List.cons_append, List.takeWhile_cons, ha]
    simp [ih (fun x hx => h x (by simp [hx]))]

theorem takeWhile_append_of_exists {p : Char → Bool} {xs : List Char} (ys : List Char)
    (h : ∃ x ∈ xs, p x = false) : (xs ++ ys).takeWhile p = xs.takeWhile p := by
  induction xs with
  | nil => rcases h with ⟨x, hx, _⟩; simp at hx
  | cons a as ih =>
    by_cases ha : p a = true
    · simp only [List.cons_append, List.takeWhile_cons, ha]
      rcases h with ⟨x, hx, hpx⟩
      rcases List.mem_cons.mp hx with rfl | hx'
      · rw [ha] at hpx; cases hpx
      · simp [ih ⟨x, hx', hpx⟩]
    · have ha' : p a = false := by revert ha; cases p a <;> simp
      simp [List.takeWhile_cons, ha']

/-- When the separator does not occur, `pySplit` returns a single chunk. -/
theorem pySplit_of_not_mem (sep : Char) (l : List Char) (h : sep ∉ l) :
    pySplit sep l = [l] := by
  induction l with
  | nil => simp [pySplit]
  | cons c cs ih =>
    have hc : c ≠ sep := fun hc => h (hc ▸ List.mem_cons_self c cs)
    have hcs : sep ∉ cs := fun hm => h (List.mem_cons_of_mem c hm)
    simp [pySplit, ih hcs, hc]

/-- A split of a list containing the separator has at least two chunks. -/
theorem pySplit_length_ge_two (sep : Char) (l : List Char) (h : sep ∈ l) :
    2 ≤ (pySplit sep l).length := by
  induction l with
  | nil => simp at h
  | cons c cs ih =>
    simp only [pySplit]
    rcases hsp : pySplit sep cs with _ | ⟨h', t⟩
    · exact absurd hsp (pySplit_ne_nil sep cs)
    · by_cases hc : c = sep
      · simp [hc]
      · rcases List.mem_cons.mp h with hcs | hmem
        · exact absurd hcs.symm hc
        · have := ih hmem
          rw [hsp] at this
          simp at this ⊢
          simpa [hc] using this

/-- The right-hand side of the spec reading is unchanged by prepending the
separator in front of the list. -/
theorem specTail_cons_sep (sep : Char) (cs : List Char) :
    ((sep :: cs).reverse.takeWhile (fun c => c ≠ sep)).reverse
      = (cs.reverse.takeWhile (fun c => c ≠ sep)).reverse := by
  rw [List.reverse_cons]
  by_cases hmem : sep ∈ cs
  · rw [takeWhile_append_of_exists [sep] ⟨sep, by simp [hmem], by simp⟩]
  · rw [takeWhile_append_of_forall [sep]
      (fun x hx => by
        simp only [decide_eq_true_eq]
        exact fun hxe => hmem (hxe ▸ List.mem_reverse.mp hx))]
    have htk : cs.reverse.takeWhile (fun c => decide (c ≠ sep)) = cs.reverse := by
      rw [List.takeWhile_eq_self_iff]
      intro x hx
      simp only [decide_eq_true_eq]
      exact fun hxe => hmem (hxe ▸ List.mem_reverse.mp hx)
    simp only [List.takeWhile]
    simp only [ne_eq, decide_not] at htk
    simp [htk]

/-- The last chunk of a Python split is exactly the suffix after the last
separator (the whole list when the separator is absent). -/
theorem pySplit_getLast? (sep : Char) (l : List Char) :
    (pySplit sep l).getLast? = some ((l.reverse.takeWhile (fun c => c ≠ sep)).reverse) := by
  induction l with
  | nil => simp [pySplit]
  | cons c cs ih =>
    by_cases hc : c = sep
    · subst hc
      simp only [pySplit]
      rcases hsp : pySplit c cs with _ | ⟨h', t⟩
      · exact absurd hsp (pySplit_ne_nil c cs)
      · simp only [decide_True, if_true]
        rw [List.getLast?_cons_cons, ← hsp, ih, specTail_cons_sep]
    · by_cases hmem : sep ∈ cs
      · -- the split of cs has at least two chunks, so consing into its head
        -- leaves the last chunk untouched
        have hlen := pySplit_length_ge_two sep cs hmem
        simp only [pySplit]
        rcases hsp : pySplit sep cs with _ | ⟨h', t⟩
        · exact absurd hsp (pySplit_ne_nil sep cs)
        · rcases t with _ | ⟨t0, ts⟩
          · rw [hsp] at hlen; simp at hlen
          · simp only [if_neg hc]
            rw [List.getLast?_cons_cons]
            have : (h' :: t0 :: ts).getLast? = (t0 :: ts).getLast? :=
              List.getLast?_cons_cons ..
            rw [← this, ← hsp, ih, List.reverse_cons,
              takeWhile_append_of_exists [c] ⟨sep, by simp [hmem], by simp⟩]
      · -- no separator anywhere: a single chunk c :: cs
        simp only [pySplit]
        rw [pySplit_of_not_mem sep cs hmem]
        simp only [if_neg hc, List.getLast?_singleton]
        rw [List.reverse_cons,
          takeWhile_append_of_forall [c]
            (fun x hx => by
              simp only [decide_eq_true_eq]
              exact fun hxe => hmem (hxe ▸ List.mem_reverse.mp hx))]
        simp [List.takeWhile, hc]


/-! ### C10 — filename validation -/

/-- C10: AudioService.validate_audio_file accepts a filename iff the
lowercased substring after its last dot is one of the allowed extensions;
matching is case-insensitive ("a.WAV" is accepted since "wav" is allowed) and
a dotless filename is accepted exactly when the entire lowercased filename is
itself an allowed extension (the bare filename "wav" is accepted). -/
theorem claim_C10_extension_matching :
    (∀ f : String,
        validate_audio_file f = true
          ↔ specExtension f ∈ settings_ALLOWED_AUDIO_EXTENSIONS)
    ∧ validate_audio_file "a.WAV" = true
    ∧ (∀ f : String, '.' ∉ (pyLower f).toList →
        (validate_audio_file f = true
          ↔ pyLower f ∈ settings_ALLOWED_AUDIO_EXTENSIONS))
    ∧ validate_audio_file "wav" = true := by
  refine ⟨fun f => ?_, by decide, fun f hdot => ?_, by decide⟩
  · unfold validate_audio_file specExtension
    rw [List.getLastD_eq_getLast?, pySplit_getLast?]
    simp
  · unfold validate_audio_file
    rw [List.getLastD_eq_getLast?, pySplit_getLast?]
    have htk : (pyLower f).toList.reverse.takeWhile (fun c => decide (c ≠ '.'))
        = (pyLower f).toList.reverse := by
      rw [List.takeWhile_eq_self_iff]
      intro x hx
      simp only [decide_eq_true_eq]
      exact fun hxe => hdot (hxe ▸ List.mem_reverse.mp hx)
    rw [htk, List.reverse_reverse]
    simp only [Option.getD_some]
    show decide (pyLower f ∈ settings_ALLOWED_AUDIO_EXTENSIONS) = true
      ↔ pyLower f ∈ settings_ALLOWED_AUDIO_EXTENSIONS
    simp

/-- C10 witness: the dotless-filename clause instantiated at "wav". -/
theorem claim_C10_extension_matching_witness :
    ('.' ∉ (pyLower "wav").toList)
    ∧ (validate_audio_file "wav" = true
        ↔ pyLower "wav" ∈ settings_ALLOWED_AUDIO_EXTENSIONS) :=
  ⟨by decide, claim_C10_extension_matching.2.2.1 "wav" (by decide)⟩

/-! ### C1 — router fallback -/

/-- C1: at the failing input — an ENGLISH recording whose AssemblyAI call
raises a provider error while an OpenAI fallback client is configured — the
router attempts only AssemblyAI and the Recording ends FAILED; the secondary
provider is never attempted, because _transcribe_with_assemblyai catches the
exception itself (lines 347-352), so the fallback branch of transcribe_audio
(lines 99-105, written precisely for this case) is unreachable.  The
KINYARWANDA half of the claim does hold: a Pindo failure goes straight to
FAILED with only the Pindo attempt made. -/
theorem claim_C1_router_fallback :
    (transcribe_audio envAll exPenvAaiRaises
        { exRecordingEng with status := .TRANSCRIBING }).attempts
      = [ProviderTag.assemblyai]
    ∧ ProviderTag.openaiWhisper ∉
        (transcribe_audio envAll exPenvAaiRaises
          { exRecordingEng with status := .TRANSCRIBING }).attempts
    ∧ (transcribe_audio envAll exPenvAaiRaises
        { exRecordingEng with status := .TRANSCRIBING }).recording.status
      = .FAILED
    ∧ (transcribe_audio envAll exPenvAaiRaises
        { exRecordingEng with status := .TRANSCRIBING }).recording.processing_error
      = some "network error"
    ∧ (transcribe_audio envAll exPenvPindoRaises
        { exRecordingKin with status := .TRANSCRIBING }).attempts
      = [ProviderTag.pindoApi]
    ∧ (transcribe_audio envAll exPenvPindoRaises
        { exRecordingKin with status := .TRANSCRIBING }).recording.status
      = .FAILED := by
  decide

/-! ### C9 — speaker-label-to-role mapping -/

/-- C9 counterexample: speaker labels introduced in chronological order
X, Y, Z all map to UNKNOWN (the code maps by label name "A"/"B", not by
encounter order), refuting X→PRACTITIONER, Y→PATIENT, Z→UNKNOWN. -/
theorem claim_C9_counterexample :
    ((transcribe_with_assemblyai envAll (.ok "t" exUtterancesXYZ [])
        { exRecordingEng with status := .TRANSCRIBING }).recording.transcript_segments.map
      (fun segs => segs.map TranscriptSegment.speaker))
      = some [SpeakerEnum.unknown, SpeakerEnum.unknown, SpeakerEnum.unknown]
    ∧ some [SpeakerEnum.unknown, SpeakerEnum.unknown, SpeakerEnum.unknown]
      ≠ some [SpeakerEnum.practitioner, SpeakerEnum.patient, SpeakerEnum.unknown] := by
  decide

/-- C9 amended: with diarization enabled and utterances present, each
segment's speaker role is a fixed function of the provider label name —
"A" maps to PRACTITIONER, "B" to PATIENT, every other label to UNKNOWN —
independent of the order in which labels are encountered; the claimed
first/second/subsequent-new-label rule coincides with this only when labels
appear in the order A, B, then others. -/
theorem claim_C9_amended (env : AudioEnv) (recording : Recording) (text : String)
    (utts : List Utterance) (words : List Word)
    (hd : env.enable_speaker_diarization = true) (hu : utts ≠ []) :
    (transcribe_with_assemblyai env (.ok text utts words) recording).recording.transcript_segments
      = some (utts.map renderUtterance)
    ∧ ∀ u ∈ utts, (renderUtterance u).speaker
        = (if u.speaker = "A" then SpeakerEnum.practitioner
           else if u.speaker = "B" then SpeakerEnum.patient
           else SpeakerEnum.unknown) := by
  constructor
  · simp only [transcribe_with_assemblyai, hd, hu, ne_eq, not_false_iff, and_self,
      if_true, true_and]
    simp [hu]
  · intro u _
    rfl

/-- C9 amended, witness: instantiated at the X, Y, Z utterances. -/
theorem claim_C9_amended_witness :
    (envAll.enable_speaker_diarization = true ∧ exUtterancesXYZ ≠ [])
    ∧ ((transcribe_with_assemblyai envAll (.ok "t" exUtterancesXYZ [])
          { exRecordingEng with status := .TRANSCRIBING }).recording.transcript_segments
        = some (exUtterancesXYZ.map renderUtterance)
      ∧ ∀ u ∈ exUtterancesXYZ, (renderUtterance u).speaker
          = (if u.speaker = "A" then SpeakerEnum.practitioner
             else if u.speaker = "B" then SpeakerEnum.patient
             else SpeakerEnum.unknown)) :=
  ⟨⟨rfl, by decide⟩,
   claim_C9_amended envAll { exRecordingEng with status := .TRANSCRIBING } "t"
     exUtterancesXYZ [] rfl (by decide)⟩

/-! ### C6 — segment synthesis bounds -/

/-- C6 counterexample: two words at 0-4000 ms and 11000-12000 ms form one
segment spanning 12 s, refuting the claim that every produced segment spans
at most 10 seconds of audio. -/
theorem claim_C6_counterexample :
    createSegmentsFromWords exWordsLong
      = [{ text := "hello there", speaker := .unknown, start_time := 0,
           end_time := 12, confidence := some (4/5) }]
    ∧ ¬ (∀ seg ∈ createSegmentsFromWords exWordsLong,
          seg.end_time - seg.start_time ≤ 10) := by
  have hch : chunksOfWords exWordsLong = [⟨exWordsLong, 0, 12000⟩] := by decide
  have hseg : createSegmentsFromWords exWordsLong
      = [{ text := "hello there", speaker := .unknown, start_time := 0,
           end_time := 12, confidence := some (4/5) }] := by
    unfold createSegmentsFromWords
    rw [hch]
    simp only [List.map_cons, List.map_nil, renderChunk, exWordsLong]
    norm_num [TranscriptSegment.mk.injEq]
    decide
  refine ⟨hseg, fun h => ?_⟩
  rw [hseg] at h
  have h12 := h _ (List.mem_singleton.mpr rfl)
  norm_num at h12

/-! ### C5 — background-task status sequence -/

/-- C5 counterexample: with diarization enabled and a successful AssemblyAI
transcription the written status sequence is PROCESSING, TRANSCRIBING,
COMPLETED, DIARIZING, COMPLETED — COMPLETED is written by the transcription
step itself before DIARIZING — and not the claimed PROCESSING, TRANSCRIBING,
DIARIZING, COMPLETED. -/
theorem claim_C5_counterexample :
    (process_audio_complete envAll exPenvAaiOk exRecordingEng).writes
      = [.PROCESSING, .TRANSCRIBING, .COMPLETED, .DIARIZING, .COMPLETED]
    ∧ ([.PROCESSING, .TRANSCRIBING, .COMPLETED, .DIARIZING, .COMPLETED]
        : List RecordingStatusEnum)
      ≠ [.PROCESSING, .TRANSCRIBING, .DIARIZING, .COMPLETED] := by
  decide

/-! ### C2 — processing_error vs FAILED status -/

/-- C2 counterexample: retry via initiate_transcription on a FAILED Recording
with a recorded error moves the status to PROCESSING while the old
processing_error stays in place, refuting that a Recording in a non-FAILED
status carries no processing_error. -/
theorem claim_C2_counterexample :
    initiate_transcription exDB2 1
      = .ok { exDB2 with recordings :=
                [⟨1, { exFailedRecording with status := .PROCESSING }⟩] }
            { exFailedRecording with status := .PROCESSING }
    ∧ ({ exFailedRecording with status := .PROCESSING }).status ≠ .FAILED
    ∧ ({ exFailedRecording with status := .PROCESSING }).processing_error
      = some "AssemblyAI error: boom" := by
  decide

/-! ### C7 — Kinyarwanda dual-language round trip -/

/-- C7: for a KINYARWANDA transcription yielding original text T whose
translation succeeds yielding Tp, the stored transcript is the labeled
concatenation with the translated (English) text first and the original
Kinyarwanda text second — in particular it contains both texts in that
order — and additional_data records original_language, translated_language,
original_text = T and translated_text = Tp. -/
theorem claim_C7_dual_language (env : AudioEnv) (recording : Recording)
    (T Tp : String) (hcli : env.openai_client = true)
    (hT : pyStrip T = T) (hTne : T ≠ "") (hTp : pyStrip Tp = Tp) :
    (transcribe_kinyarwanda env (.responded (some T)) (.ok Tp) recording).recording.transcript
      = some ("English: " ++ Tp ++ "\n\nKinyarwanda: " ++ T)
    ∧ (∃ a b : String,
        (transcribe_kinyarwanda env (.responded (some T)) (.ok Tp)
            recording).recording.transcript
          = some (a ++ Tp ++ b ++ T))
    ∧ (transcribe_kinyarwanda env (.responded (some T)) (.ok Tp)
        recording).recording.additional_data
      = some { original_language := "KINYARWANDA", translated_language := "ENGLISH",
               original_text := T, translated_text := Tp } := by
  have hcond : ¬ (T = "" ∨ pyStrip T = "") := by
    rw [hT]
    simp [hTne]
  have htr : translate_to_english env (.ok Tp) T = Tp := by
    unfold translate_to_english
    rw [hcli]
    simp [hTp]
  refine ⟨?_, ⟨"English: ", "\n\nKinyarwanda: ", ?_⟩, ?_⟩ <;>
    simp [transcribe_kinyarwanda, hcond, hT, htr, hTne]

/-- C7 witness: instantiated at T = "muraho", Tp = "hello". -/
theorem claim_C7_dual_language_witness :
    (envAll.openai_client = true ∧ pyStrip "muraho" = "muraho" ∧ ("muraho" : String) ≠ ""
      ∧ pyStrip "hello" = "hello")
    ∧ (transcribe_kinyarwanda envAll (.responded (some "muraho")) (.ok "hello")
        exRecordingKin).recording.transcript
      = some ("English: " ++ "hello" ++ "\n\nKinyarwanda: " ++ "muraho") :=
  ⟨⟨rfl, by decide, by decide, by decide⟩,
   (claim_C7_dual_language envAll exRecordingKin "muraho" "hello" rfl (by decide)
      (by decide) (by decide)).1⟩

/-! ### C4 — upload -/

theorem service_upload_ok_imp (db : DB) (rid file_size : Nat) (filename : String)
    (o : Option Recording)
    (h : service_upload_audio_file db rid file_size filename = .ok o) :
    get_by_id db rid = none := by
  cases hg : get_by_id db rid with
  | none => rfl
  | some r =>
      exfalso
      simp only [service_upload_audio_file, hg] at h
      by_cases h1 : r.row.status ≠ .RECORDING ∧ r.row.status ≠ .STOPPED
      · rw [if_pos h1] at h
        exact Except.noConfusion h
      · rw [if_neg h1] at h
        by_cases h2 : ¬ validate_audio_file filename = true
        · rw [if_pos h2] at h
          exact Except.noConfusion h
        · rw [if_neg h2] at h
          exact Except.noConfusion h

/-- C4: at the failing input — recording 1 exists in RECORDING state, the
filename "test.wav" has an allowed extension and the 4-byte payload is within
the size limit — the upload endpoint returns HTTP 500 carrying the
AttributeError raised by the audio_service.settings access
(recording_service.py lines 113 and 116; the AudioService instance has no
settings attribute), so the Recording is never transitioned to UPLOADED;
moreover no upload invocation can ever return success. -/
theorem claim_C4_upload_broken :
    endpoint_upload_audio_file exDB1 1 4 "test.wav"
      = .error ⟨.serverError500,
          "Failed to upload file: AudioService object has no attribute settings"⟩
    ∧ (∀ (db : DB) (rid file_size : Nat) (filename : String),
        ∃ e, endpoint_upload_audio_file db rid file_size filename = .error e) := by
  constructor
  · rfl
  · intro db rid file_size filename
    unfold endpoint_upload_audio_file
    by_cases hs : file_size > settings_MAX_FILE_SIZE
    · rw [if_pos hs]
      exact ⟨_, rfl⟩
    · rw [if_neg hs]
      cases hsv : service_upload_audio_file db rid file_size filename with
      | error e =>
          cases e with
          | valueError m => exact ⟨_, rfl⟩
          | attributeError m => exact ⟨_, rfl⟩
      | ok o =>
          have hg := service_upload_ok_imp db rid file_size filename o hsv
          have hupd : update_recording db rid (fun q =>
              { q with
                file_name := filename
                file_path := "uploads/" ++ filename
                file_size_bytes := some file_size
                status := .UPLOADED }) = none := by
            unfold update_recording
            rw [hg]
          rw [hupd]
          exact ⟨_, rfl⟩

/-! ### C3 — at most one active Recording per session -/

theorem countP_active_zero (db : DB) (sid : Nat)
    (h : get_active_recording_by_session db sid = none) :
    db.recordings.countP
      (fun r => decide (r.row.session_id = sid ∧ r.row.status = .RECORDING)) = 0 := by
  rw [List.countP_eq_zero]
  intro r hr
  have hnone := List.find?_eq_none.mp h r hr
  simpa using hnone

theorem start_recording_ok_inv (db : DB) (sid : Nat) (db' : DB) (rid : Nat)
    (hok : start_recording db sid = .ok db' rid) (hinv : atMostOneActive db) :
    atMostOneActive db' := by
  cases hfs : db.sessions.find? (fun s => decide (s.sid = sid)) with
  | none =>
      simp only [start_recording, hfs] at hok
      exact StartResult.noConfusion hok
  | some s =>
      simp only [start_recording, hfs] at hok
      by_cases hact : s.status ≠ .ACTIVE
      · rw [if_pos hact] at hok; exact StartResult.noConfusion hok
      · rw [if_neg hact] at hok
        cases hga : get_active_recording_by_session db sid with
        | some r => rw [hga] at hok; exact StartResult.noConfusion hok
        | none =>
            rw [hga] at hok
            injection hok with h1 h2
            subst h1
            intro sid'
            simp only [List.countP_append]
            by_cases hsid : sid' = sid
            · subst hsid
              rw [countP_active_zero db sid' hga]
              simp [List.countP_cons, newRecording]
            · have h0 : List.countP
                  (fun r => decide (r.row.session_id = sid' ∧ r.row.status = .RECORDING))
                  ([⟨db.next_id, newRecording sid⟩] : List RecordingRow) = 0 := by
                simp [List.countP_cons, newRecording, Ne.symm hsid]
              rw [h0]
              simpa using hinv sid'

theorem stop_recording_ok_inv (db : DB) (rid : Nat) (db' : DB)
    (hok : stop_recording db rid = .ok db') (hinv : atMostOneActive db) :
    atMostOneActive db' := by
  cases hg : get_by_id db rid with
  | none =>
      simp only [stop_recording, hg] at hok
      exact StopResult.noConfusion hok
  | some r =>
      simp only [stop_recording, hg] at hok
      by_cases hst : r.row.status ≠ .RECORDING
      · rw [if_pos hst] at hok; exact StopResult.noConfusion hok
      · rw [if_neg hst] at hok
        simp only [update_recording, hg] at hok
        injection hok with h1
        subst h1
        intro sid
        rw [List.countP_map]
        refine le_trans (List.countP_mono_left ?_) (hinv sid)
        intro q _ hq
        by_cases hr : q.rid = rid
        · simp [Function.comp, hr] at hq
        · simpa [Function.comp, hr] using hq

theorem runOps_inv (ops : List LifecycleOp) (db : DB) (hinv : atMostOneActive db) :
    atMostOneActive (runOps db ops) := by
  induction ops generalizing db with
  | nil => exact hinv
  | cons op ops ih =>
      show atMostOneActive ((op :: ops).foldl applyOp db)
      rw [List.foldl_cons]
      apply ih
      cases op with
      | startOp sid =>
          show atMostOneActive (applyOp db (.startOp sid))
          simp only [applyOp]
          cases hs : start_recording db sid with
          | ok db' rid => exact start_recording_ok_inv db sid db' rid hs hinv
          | sessionNotFound => exact hinv
          | sessionNotActive => exact hinv
          | alreadyActiveRecording => exact hinv
      | stopOp rid =>
          show atMostOneActive (applyOp db (.stopOp rid))
          simp only [applyOp]
          cases hs : stop_recording db rid with
          | ok db' => exact stop_recording_ok_inv db rid db' hs hinv
          | notFound => exact hinv
          | notActive => exact hinv

/-- C3: after any sequence of start/stop calls, at most one Recording of each
session has status RECORDING (provided the invariant holds initially); and
start fails — with the conflict-signalling error and without creating any
Recording — when the session is not active or already has a Recording in
RECORDING state. -/
theorem claim_C3_single_active :
    (∀ (ops : List LifecycleOp) (db : DB),
        atMostOneActive db → atMostOneActive (runOps db ops))
    ∧ (∀ (db : DB) (sid : Nat) (s : SessionRow),
        db.sessions.find? (fun q => decide (q.sid = sid)) = some s →
        s.status ≠ .ACTIVE →
        start_recording db sid = .sessionNotActive
          ∧ applyOp db (.startOp sid) = db)
    ∧ (∀ (db : DB) (sid : Nat) (s : SessionRow) (r : RecordingRow),
        db.sessions.find? (fun q => decide (q.sid = sid)) = some s →
        s.status = .ACTIVE →
        get_active_recording_by_session db sid = some r →
        start_recording db sid = .alreadyActiveRecording
          ∧ applyOp db (.startOp sid) = db) := by
  refine ⟨fun ops db hinv => runOps_inv ops db hinv, ?_, ?_⟩
  · intro db sid s hfs hact
    have hres : start_recording db sid = .sessionNotActive := by
      simp only [start_recording, hfs]
      rw [if_pos hact]
    exact ⟨hres, by simp only [applyOp]; rw [hres]⟩
  · intro db sid s r hfs hact hga
    have hres : start_recording db sid = .alreadyActiveRecording := by
      simp only [start_recording, hfs]
      rw [if_neg (by simp [hact]), hga]
    exact ⟨hres, by simp only [applyOp]; rw [hres]⟩

/-- C3 witness: the invariant preserved over a concrete start/stop sequence
on a one-session database, and both refusal conditions hit on concrete
databases. -/
theorem claim_C3_single_active_witness :
    atMostOneActive (runOps exDB1 [.startOp 1, .stopOp 1])
    ∧ start_recording exDBInactive 1 = .sessionNotActive
    ∧ start_recording exDB1 1 = .alreadyActiveRecording := by
  have hinv : atMostOneActive exDB1 := by
    intro sid
    show List.countP _ ([⟨1, exRecordingFresh⟩] : List RecordingRow) ≤ 1
    rw [List.countP_cons]
    simp only [List.countP_nil, Nat.zero_add]
    split <;> simp
  refine ⟨claim_C3_single_active.1 [.startOp 1, .stopOp 1] exDB1 hinv, ?_, ?_⟩
  · exact (claim_C3_single_active.2.1 exDBInactive 1 ⟨1, .COMPLETED⟩ (by decide)
      (by decide)).1
  · exact (claim_C3_single_active.2.2 exDB1 1 ⟨1, .ACTIVE⟩ ⟨1, exRecordingFresh⟩
      (by decide) (by decide) (by decide)).1

/-! ### C6 amended — segmentation invariants -/

theorem segStep_ok (p : List Chunk × CurSeg) (w : Word)
    (hc : ∀ c ∈ p.1, ChunkOk c) (hcur : CurOk p.2) :
    (∀ c ∈ (segStep p w).1, ChunkOk c) ∧ CurOk (segStep p w).2 := by
  rcases p with ⟨cs, cur⟩
  rcases hw : cur.words with _ | ⟨a, rest⟩
  · have hstart : cur.start_ = none := by
      simp only [CurOk, hw, List.head?_nil] at hcur
      exact hcur.2
    simp only [segStep, hw, hstart, Option.getD_none, List.nil_append]
    by_cases hcond : w.end_ - w.start > 10000 ∨ ([w] : List Word).length > 50
    · rw [if_pos hcond]
      refine ⟨?_, by simp [CurOk]⟩
      intro c hcmem
      rcases List.mem_append.mp hcmem with h | h
      · exact hc c h
      · rw [List.mem_singleton] at h
        subst h
        refine ⟨by simp, by simp, by simp, ?_⟩
        intro a' ha'
        simp at ha'
    · rw [if_neg hcond]
      push_neg at hcond
      refine ⟨hc, ?_⟩
      show some w.start = some w.start ∧ ([w] : List Word).length ≤ 50
        ∧ ∀ b ∈ ([w] : List Word), b.end_ - w.start ≤ 10000
      refine ⟨rfl, by simp, ?_⟩
      intro b hb
      rw [List.mem_singleton] at hb
      subst hb
      exact hcond.1
  · simp only [CurOk, hw, List.head?_cons] at hcur
    obtain ⟨hstart, hlen, hspan⟩ := hcur
    simp only [segStep, hw, hstart, Option.getD_some]
    by_cases hcond : w.end_ - a.start > 10000 ∨ ((a :: rest) ++ [w]).length > 50
    · rw [if_pos hcond]
      refine ⟨?_, by simp [CurOk]⟩
      intro c hcmem
      rcases List.mem_append.mp hcmem with h | h
      · exact hc c h
      · rw [List.mem_singleton] at h
        subst h
        refine ⟨by simp, ?_, ?_, ?_⟩
        · show ((a :: rest) ++ [w]).length ≤ 51
          simp only [List.length_append, List.length_cons, List.length_nil] at hlen ⊢
          omega
        · show ((a :: rest) ++ [w]).dropLast.length ≤ 50
          rw [List.dropLast_concat]
          exact hlen
        · intro a' ha' b hb
          rw [show ((⟨(a :: rest) ++ [w], a.start, w.end_⟩ : Chunk)).words
              = (a :: rest) ++ [w] from rfl, List.dropLast_concat] at ha' hb
          rw [List.head?_cons] at ha'
          injection ha' with ha''
          subst ha''
          exact hspan b hb
    · rw [if_neg hcond]
      push_neg at hcond
      refine ⟨hc, ?_⟩
      show some a.start = some a.start ∧ ((a :: rest) ++ [w] : List Word).length ≤ 50
        ∧ ∀ b ∈ (a :: rest) ++ [w], b.end_ - a.start ≤ 10000
      refine ⟨rfl, hcond.2, ?_⟩
      intro b hb
      rcases List.mem_cons.mp hb with rfl | hb'
      · exact hspan b (List.mem_cons_self _ _)
      · rcases List.mem_append.mp hb' with h | h
        · exact hspan b (List.mem_cons_of_mem a h)
        · rw [List.mem_singleton] at h
          subst h
          exact hcond.1

theorem segStep_words (p : List Chunk × CurSeg) (w : Word) :
    ((segStep p w).1.map Chunk.words).join ++ (segStep p w).2.words
      = ((p.1.map Chunk.words).join ++ p.2.words) ++ [w] := by
  rcases p with ⟨cs, cur⟩
  simp only [segStep]
  by_cases hcond : w.end_ - cur.start_.getD w.start > 10000
      ∨ (cur.words ++ [w]).length > 50
  · rw [if_pos hcond]
    simp [List.join_append]
  · rw [if_neg hcond]
    simp

theorem foldl_segStep_ok (ws : List Word) (p : List Chunk × CurSeg)
    (hc : ∀ c ∈ p.1, ChunkOk c) (hcur : CurOk p.2) :
    (∀ c ∈ (ws.foldl segStep p).1, ChunkOk c) ∧ CurOk (ws.foldl segStep p).2 := by
  induction ws generalizing p with
  | nil => exact ⟨hc, hcur⟩
  | cons w ws ih =>
      rw [List.foldl_cons]
      have h := segStep_ok p w hc hcur
      exact ih (segStep p w) h.1 h.2

theorem foldl_segStep_words (ws : List Word) (p : List Chunk × CurSeg) :
    ((ws.foldl segStep p).1.map Chunk.words).join ++ (ws.foldl segStep p).2.words
      = ((p.1.map Chunk.words).join ++ p.2.words) ++ ws := by
  induction ws generalizing p with
  | nil => simp
  | cons w ws ih =>
      rw [List.foldl_cons, ih (segStep p w), segStep_words]
      simp

theorem segFold_ok (ws : List Word) :
    (∀ c ∈ (segFold ws).1, ChunkOk c) ∧ CurOk (segFold ws).2 := by
  refine foldl_segStep_ok ws ([], ⟨[], none, none⟩) (by simp) ?_
  simp [CurOk]

theorem segFold_words (ws : List Word) :
    ((segFold ws).1.map Chunk.words).join ++ (segFold ws).2.words = ws := by
  have h := foldl_segStep_words ws ([], ⟨[], none, none⟩)
  simpa using h

theorem chunksOfWords_join (ws : List Word) :
    ((chunksOfWords ws).map Chunk.words).join = ws := by
  unfold chunksOfWords
  by_cases hnil : (segFold ws).2.words = []
  · rw [if_pos hnil]
    have h := segFold_words ws
    rw [hnil] at h
    simpa using h
  · rw [if_neg hnil]
    have h := segFold_words ws
    simp only [List.map_append, List.map_cons, List.map_nil, List.join_append]
    simpa using h

theorem chunksOfWords_ok (ws : List Word) : ∀ c ∈ chunksOfWords ws, ChunkOk c := by
  unfold chunksOfWords
  by_cases hnil : (segFold ws).2.words = []
  · rw [if_pos hnil]
    exact (segFold_ok ws).1
  · rw [if_neg hnil]
    intro c hcmem
    rcases List.mem_append.mp hcmem with h | h
    · exact (segFold_ok ws).1 c h
    · rw [List.mem_singleton] at h
      subst h
      have hcur := (segFold_ok ws).2
      rcases hw : (segFold ws).2.words with _ | ⟨a, rest⟩
      · exact absurd hw hnil
      · simp only [CurOk, hw, List.head?_cons] at hcur
        obtain ⟨-, hlen, hspan⟩ := hcur
        refine ⟨?_, ?_, ?_, ?_⟩
        · show a :: rest ≠ []
          simp
        · show (a :: rest).length ≤ 51
          simp only [List.length_cons] at hlen ⊢
          omega
        · show (a :: rest).dropLast.length ≤ 50
          simp only [List.length_dropLast, List.length_cons] at hlen ⊢
          omega
        · intro a' ha' b hb
          have ha2 : (a :: rest).dropLast.head? = some a' := ha'
          have hb2 : b ∈ (a :: rest).dropLast := hb
          rcases rest with _ | ⟨r0, rs⟩
          · simp at ha2
          · have ha3 : (a :: (r0 :: rs).dropLast).head? = some a' := ha2
            rw [List.head?_cons] at ha3
            injection ha3 with ha''
            subst ha''
            have hb3 : b ∈ a :: (r0 :: rs).dropLast := hb2
            have hbmem : b ∈ a :: r0 :: rs := by
              rcases List.mem_cons.mp hb3 with rfl | hb'
              · exact List.mem_cons_self _ _
              · exact List.mem_cons_of_mem _ (List.dropLast_subset _ hb')
            exact hspan b hbmem

/-- C6 amended: the synthesizer groups the words into chunks each rendered as
one segment with speaker UNKNOWN and fixed confidence 0.8; every input word
lands in exactly one chunk, in order; a chunk holds at most 51 words (the
bound check runs after the closing word is appended), and a chunk minus its
final word is within 50 words and 10 seconds of elapsed audio. -/
theorem claim_C6_amended (ws : List Word) :
    ((chunksOfWords ws).map Chunk.words).join = ws
    ∧ (∀ c ∈ chunksOfWords ws, ChunkOk c)
    ∧ createSegmentsFromWords ws = (chunksOfWords ws).map renderChunk
    ∧ (∀ seg ∈ createSegmentsFromWords ws,
        seg.speaker = SpeakerEnum.unknown ∧ seg.confidence = some (4/5)) := by
  refine ⟨chunksOfWords_join ws, chunksOfWords_ok ws, rfl, ?_⟩
  intro seg hseg
  rcases List.mem_map.mp hseg with ⟨c, _, rfl⟩
  exact ⟨rfl, rfl⟩

/-- C6 amended, witness: instantiated on the two-word input of the
counterexample; its single chunk satisfies the amended bounds. -/
theorem claim_C6_amended_witness :
    ((chunksOfWords exWordsLong).map Chunk.words).join = exWordsLong
    ∧ ChunkOk ⟨exWordsLong, 0, 12000⟩ :=
  ⟨(claim_C6_amended exWordsLong).1,
   (claim_C6_amended exWordsLong).2.1 ⟨exWordsLong, 0, 12000⟩ (by decide)⟩

/-! ### C5 amended — status-write characterization -/

/-- C5 amended: for an ENGLISH recording routed to AssemblyAI (FRENCH and
SWAHILI route identically), the task writes PROCESSING then TRANSCRIBING; on
success with a non-empty text the transcription step itself writes COMPLETED,
after which the task writes DIARIZING (when diarization is enabled) and
COMPLETED again — so COMPLETED is reached before DIARIZING; on a raised
provider error or an error-status transcript the transcription step writes
FAILED with the error detail in processing_error and the task writes FAILED
again. -/
theorem claim_C5_amended (env : AudioEnv) (penv : ProviderEnv) (recording : Recording)
    (hlang : recording.language = .ENGLISH)
    (haai : env.use_assemblyai = true) (hav : env.assemblyai_available = true) :
    (∀ text utts words, penv.aai = .ok text utts words → text ≠ "" →
      (process_audio_complete env penv recording).writes
        = [.PROCESSING, .TRANSCRIBING, .COMPLETED]
          ++ (if env.enable_speaker_diarization then [.DIARIZING] else [])
          ++ [.COMPLETED]
      ∧ (process_audio_complete env penv recording).recording.status = .COMPLETED
      ∧ (process_audio_complete env penv recording).recording.processing_error = none)
    ∧ (∀ msg, penv.aai = .raises msg →
        (process_audio_complete env penv recording).writes
          = [.PROCESSING, .TRANSCRIBING, .FAILED, .FAILED]
        ∧ (process_audio_complete env penv recording).recording.status = .FAILED
        ∧ (process_audio_complete env penv recording).recording.processing_error
          = some msg)
    ∧ (∀ err, penv.aai = .errorStatus err →
        (process_audio_complete env penv recording).writes
          = [.PROCESSING, .TRANSCRIBING, .FAILED, .FAILED]
        ∧ (process_audio_complete env penv recording).recording.status = .FAILED
        ∧ (process_audio_complete env penv recording).recording.processing_error
          = some ("AssemblyAI error: " ++ err)) := by
  obtain ⟨sid, fn, fp, lang, st, ds, fsb, tr, tseg, pe, ad⟩ := recording
  obtain ⟨aout, oout, pout, tout⟩ := penv
  dsimp only at hlang
  subst hlang
  refine ⟨?_, ?_, ?_⟩
  · intro text utts words ha htext
    dsimp only at ha
    subst ha
    refine ⟨?_, ?_, ?_⟩ <;>
      simp [process_audio_complete, transcribe_audio, transcribe_with_assemblyai,
        optTruthy, haai, hav, htext]
  · intro msg ha
    dsimp only at ha
    subst ha
    refine ⟨?_, ?_, ?_⟩ <;>
      simp [process_audio_complete, transcribe_audio, transcribe_with_assemblyai,
        optTruthy, haai, hav]
  · intro err ha
    dsimp only at ha
    subst ha
    refine ⟨?_, ?_, ?_⟩ <;>
      simp [process_audio_complete, transcribe_audio, transcribe_with_assemblyai,
        optTruthy, haai, hav]

/-- C5 amended, witness: the raised-error case at the concrete failing
environment of the counterexample input family. -/
theorem claim_C5_amended_witness :
    (exRecordingEng.language = .ENGLISH ∧ envAll.use_assemblyai = true
      ∧ envAll.assemblyai_available = true
      ∧ exPenvAaiRaises.aai = .raises "network error")
    ∧ ((process_audio_complete envAll exPenvAaiRaises exRecordingEng).writes
        = [.PROCESSING, .TRANSCRIBING, .FAILED, .FAILED]
      ∧ (process_audio_complete envAll exPenvAaiRaises exRecordingEng).recording.status
        = .FAILED
      ∧ (process_audio_complete envAll exPenvAaiRaises
          exRecordingEng).recording.processing_error = some "network error") :=
  ⟨⟨rfl, rfl, rfl, rfl⟩,
   (claim_C5_amended envAll exPenvAaiRaises exRecordingEng rfl rfl rfl).2.1
     "network error" rfl⟩

/-! ### C2 amended — processing_error discipline -/

theorem string_append_ne_empty (s t : String) (h : s ≠ "") : s ++ t ≠ "" := by
  intro he
  apply h
  rcases s with ⟨ds⟩
  rcases t with ⟨dt⟩
  have hd : ds ++ dt = [] := congrArg String.data he
  rcases List.append_eq_nil.mp hd with ⟨h1, -⟩
  rw [h1]

theorem transcribe_kinyarwanda_error_discipline (env : AudioEnv)
    (pindo : PindoOutcome) (tr : TranslateOutcome) (recording : Recording) :
    (optTruthy (transcribe_kinyarwanda env pindo tr recording).result = false →
      ∃ e, (transcribe_kinyarwanda env pindo tr recording).recording.processing_error
          = some e ∧ e ≠ "")
    ∧ (optTruthy (transcribe_kinyarwanda env pindo tr recording).result = true →
      (transcribe_kinyarwanda env pindo tr recording).recording.processing_error
        = none) := by
  cases pindo with
  | raises msg =>
      exact ⟨fun _ => ⟨_, rfl, string_append_ne_empty _ _ (by decide)⟩,
        fun h => by simp [transcribe_kinyarwanda, optTruthy] at h⟩
  | httpError code body =>
      exact ⟨fun _ => ⟨_, rfl,
          string_append_ne_empty _ _ (string_append_ne_empty _ _
            (string_append_ne_empty _ _ (by decide)))⟩,
        fun h => by simp [transcribe_kinyarwanda, optTruthy] at h⟩
  | responded t =>
      cases t with
      | none =>
          exact ⟨fun _ => ⟨_, rfl, by decide⟩,
            fun h => by simp [transcribe_kinyarwanda, optTruthy] at h⟩
      | some raw =>
          by_cases hraw : raw = "" ∨ pyStrip raw = ""
          · refine ⟨fun _ => ?_, fun h => ?_⟩
            · refine ⟨"Empty transcription from Pindo API", ?_, by decide⟩
              simp [transcribe_kinyarwanda, hraw]
            · simp [transcribe_kinyarwanda, hraw, optTruthy] at h
          · have hne : pyStrip raw ≠ "" := fun hh => hraw (Or.inr hh)
            have hrawne : raw ≠ "" := fun hh => hraw (Or.inl hh)
            refine ⟨fun h => ?_, fun _ => ?_⟩
            · exfalso
              simp [transcribe_kinyarwanda, hraw, optTruthy, hne, hrawne] at h
            · simp [transcribe_kinyarwanda, hraw, hne, hrawne]

theorem transcribe_with_assemblyai_error_discipline (env : AudioEnv)
    (o : AaiOutcome) (recording : Recording)
    (hr : ∀ m, o = .raises m → m ≠ "")
    (ht : ∀ t u w, o = .ok t u w → t ≠ "") :
    (optTruthy (transcribe_with_assemblyai env o recording).result = false →
      ∃ e, (transcribe_with_assemblyai env o recording).recording.processing_error
          = some e ∧ e ≠ "")
    ∧ (optTruthy (transcribe_with_assemblyai env o recording).result = true →
      (transcribe_with_assemblyai env o recording).recording.processing_error
        = none) := by
  cases o with
  | raises msg =>
      exact ⟨fun _ => ⟨msg, rfl, hr msg rfl⟩,
        fun h => by simp [transcribe_with_assemblyai, optTruthy] at h⟩
  | errorStatus err =>
      exact ⟨fun _ => ⟨_, rfl, string_append_ne_empty _ _ (by decide)⟩,
        fun h => by simp [transcribe_with_assemblyai, optTruthy] at h⟩
  | ok text utts words =>
      have htx := ht text utts words rfl
      refine ⟨fun h => ?_, fun _ => rfl⟩
      exfalso
      simp [transcribe_with_assemblyai, optTruthy, htx] at h

theorem transcribe_with_openai_error_discipline (env : AudioEnv)
    (o : OpenAiOutcome) (recording : Recording)
    (hr : ∀ m, o = .raises m → m ≠ "")
    (ht : ∀ t s, o = .ok t s → t ≠ "") :
    (optTruthy (transcribe_with_openai env o recording).result = false →
      ∃ e, (transcribe_with_openai env o recording).recording.processing_error
          = some e ∧ e ≠ "")
    ∧ (optTruthy (transcribe_with_openai env o recording).result = true →
      (transcribe_with_openai env o recording).recording.processing_error = none) := by
  by_cases hcli : env.openai_client = true
  · cases o with
    | raises msg =>
        refine ⟨fun _ => ⟨msg, ?_, hr msg rfl⟩, fun h => ?_⟩
        · simp [transcribe_with_openai, hcli]
        · simp [transcribe_with_openai, optTruthy, hcli] at h
    | ok text segs =>
        have htx := ht text segs rfl
        refine ⟨fun h => ?_, fun _ => ?_⟩
        · exfalso
          simp [transcribe_with_openai, optTruthy, hcli, htx] at h
        · simp [transcribe_with_openai, hcli]
  · refine ⟨fun _ => ⟨"OpenAI API key not configured", ?_, by decide⟩, fun h => ?_⟩
    · simp [transcribe_with_openai, hcli]
    · simp [transcribe_with_openai, optTruthy, hcli] at h

theorem transcribe_audio_error_discipline (env : AudioEnv) (penv : ProviderEnv)
    (recording : Recording) (hs : ServiceConfigured env recording) (hp : ProvOk penv) :
    (optTruthy (transcribe_audio env penv recording).result = false →
      ∃ e, (transcribe_audio env penv recording).recording.processing_error
          = some e ∧ e ≠ "")
    ∧ (optTruthy (transcribe_audio env penv recording).result = true →
      (transcribe_audio env penv recording).recording.processing_error = none) := by
  obtain ⟨hp1, hp2, hp3, hp4⟩ := hp
  obtain ⟨sid, fn, fp, lang, st, ds, fsb, trr, tseg, pe, ad⟩ := recording
  cases lang with
  | KINYARWANDA => exact transcribe_kinyarwanda_error_discipline env penv.pindo penv.translate _
  | ENGLISH =>
      by_cases haai : env.use_assemblyai = true ∧ env.assemblyai_available = true
      · have hred : transcribe_audio env penv
            ⟨sid, fn, fp, .ENGLISH, st, ds, fsb, trr, tseg, pe, ad⟩
            = transcribe_with_assemblyai env penv.aai
                ⟨sid, fn, fp, .ENGLISH, st, ds, fsb, trr, tseg, pe, ad⟩ := by
          simp [transcribe_audio, haai.1, haai.2]
        rw [hred]
        exact transcribe_with_assemblyai_error_discipline env penv.aai _ hp1 hp2
      · by_cases hcli : env.openai_client = true
        · have hred : transcribe_audio env penv
              ⟨sid, fn, fp, .ENGLISH, st, ds, fsb, trr, tseg, pe, ad⟩
              = transcribe_with_openai env penv.oai
                  ⟨sid, fn, fp, .ENGLISH, st, ds, fsb, trr, tseg, pe, ad⟩ := by
            simp only [transcribe_audio]
            rw [if_neg haai, if_pos hcli]
          rw [hred]
          exact transcribe_with_openai_error_discipline env penv.oai _ hp3 hp4
        · exfalso
          rcases hs with h | ⟨h1, h2⟩ | h
          · exact LanguageEnum.noConfusion h
          · exact haai ⟨h1, h2⟩
          · exact hcli h
  | FRENCH =>
      by_cases haai : env.use_assemblyai = true ∧ env.assemblyai_available = true
      · have hred : transcribe_audio env penv
            ⟨sid, fn, fp, .FRENCH, st, ds, fsb, trr, tseg, pe, ad⟩
            = transcribe_with_assemblyai env penv.aai
                ⟨sid, fn, fp, .FRENCH, st, ds, fsb, trr, tseg, pe, ad⟩ := by
          simp [transcribe_audio, haai.1, haai.2]
        rw [hred]
        exact transcribe_with_assemblyai_error_discipline env penv.aai _ hp1 hp2
      · by_cases hcli : env.openai_client = true
        · have hred : transcribe_audio env penv
              ⟨sid, fn, fp, .FRENCH, st, ds, fsb, trr, tseg, pe, ad⟩
              = transcribe_with_openai env penv.oai
                  ⟨sid, fn, fp, .FRENCH, st, ds, fsb, trr, tseg, pe, ad⟩ := by
            simp only [transcribe_audio]
            rw [if_neg haai, if_pos hcli]
          rw [hred]
          exact transcribe_with_openai_error_discipline env penv.oai _ hp3 hp4
        · exfalso
          rcases hs with h | ⟨h1, h2⟩ | h
          · exact LanguageEnum.noConfusion h
          · exact haai ⟨h1, h2⟩
          · exact hcli h
  | SWAHILI =>
      by_cases haai : env.use_assemblyai = true ∧ env.assemblyai_available = true
      · have hred : transcribe_audio env penv
            ⟨sid, fn, fp, .SWAHILI, st, ds, fsb, trr, tseg, pe, ad⟩
            = transcribe_with_assemblyai env penv.aai
                ⟨sid, fn, fp, .SWAHILI, st, ds, fsb, trr, tseg, pe, ad⟩ := by
          simp [transcribe_audio, haai.1, haai.2]
        rw [hred]
        exact transcribe_with_assemblyai_error_discipline env penv.aai _ hp1 hp2
      · by_cases hcli : env.openai_client = true
        · have hred : transcribe_audio env penv
              ⟨sid, fn, fp, .SWAHILI, st, ds, fsb, trr, tseg, pe, ad⟩
              = transcribe_with_openai env penv.oai
                  ⟨sid, fn, fp, .SWAHILI, st, ds, fsb, trr, tseg, pe, ad⟩ := by
            simp only [transcribe_audio]
            rw [if_neg haai, if_pos hcli]
          rw [hred]
          exact transcribe_with_openai_error_discipline env penv.oai _ hp3 hp4
        · exfalso
          rcases hs with h | ⟨h1, h2⟩ | h
          · exact LanguageEnum.noConfusion h
          · exact haai ⟨h1, h2⟩
          · exact hcli h

/-- C2 amended: with a transcription service configured for the recording's
language and well-formed provider outcomes, the background task leaves a
FAILED Recording carrying a non-empty processing_error and a COMPLETED
Recording carrying none; the retry entry point initiate_transcription,
however, moves a FAILED Recording to PROCESSING while leaving its previous
processing_error in place. -/
theorem claim_C2_amended :
    (∀ (env : AudioEnv) (penv : ProviderEnv) (recording : Recording),
      ServiceConfigured env recording → ProvOk penv →
      ((process_audio_complete env penv recording).recording.status = .FAILED →
        ∃ e, (process_audio_complete env penv recording).recording.processing_error
            = some e ∧ e ≠ "")
      ∧ ((process_audio_complete env penv recording).recording.status = .COMPLETED →
        (process_audio_complete env penv recording).recording.processing_error = none))
    ∧ (∀ (db : DB) (rid : Nat) (r : RecordingRow),
        get_by_id db rid = some r → r.row.status = .FAILED →
        r.row.file_path ≠ "" → r.row.file_name ≠ "" →
        ∃ db', initiate_transcription db rid
          = .ok db' { r.row with status := .PROCESSING }) := by
  constructor
  · intro env penv recording hs hp
    have hd := transcribe_audio_error_discipline env penv
      { recording with status := .TRANSCRIBING } hs hp
    cases htt : optTruthy
        (transcribe_audio env penv { recording with status := .TRANSCRIBING }).result with
    | false =>
        have hstat : (process_audio_complete env penv recording).recording.status
            = .FAILED := by
          simp [process_audio_complete, htt]
        have herr : (process_audio_complete env penv recording).recording.processing_error
            = (transcribe_audio env penv
                { recording with status := .TRANSCRIBING }).recording.processing_error := by
          simp [process_audio_complete, htt]
        refine ⟨fun _ => ?_, fun hC => ?_⟩
        · rw [herr]
          exact hd.1 htt
        · rw [hstat] at hC
          exact RecordingStatusEnum.noConfusion hC
    | true =>
        have hstat : (process_audio_complete env penv recording).recording.status
            = .COMPLETED := by
          simp [process_audio_complete, htt]
        have herr : (process_audio_complete env penv recording).recording.processing_error
            = (transcribe_audio env penv
                { recording with status := .TRANSCRIBING }).recording.processing_error := by
          simp [process_audio_complete, htt]
        refine ⟨fun hF => ?_, fun _ => ?_⟩
        · rw [hstat] at hF
          exact RecordingStatusEnum.noConfusion hF
        · rw [herr]
          exact hd.2 htt
  · intro db rid r hg hst hfp hfn
    have hcond : ¬ (r.row.status ≠ .STOPPED ∧ r.row.status ≠ .FAILED) := by
      simp [hst]
    simp only [initiate_transcription, hg]
    rw [if_neg hcond, if_neg (by simp [hfp, hfn])]
    simp only [update_recording, hg]
    exact ⟨_, rfl⟩

/-- C2 amended, witness: the task part at a concrete raised provider error
and the retry part at the FAILED fixture database. -/
theorem claim_C2_amended_witness :
    (ServiceConfigured envAll exRecordingEng ∧ ProvOk exPenvAaiRaises)
    ∧ (∃ e, (process_audio_complete envAll exPenvAaiRaises
          exRecordingEng).recording.processing_error = some e ∧ e ≠ "")
    ∧ (∃ db', initiate_transcription exDB2 1
        = .ok db' { exFailedRecording with status := .PROCESSING }) := by
  have hs : ServiceConfigured envAll exRecordingEng := Or.inr (Or.inl ⟨rfl, rfl⟩)
  have hp : ProvOk exPenvAaiRaises := by
    refine ⟨?_, ?_, ?_, ?_⟩
    · intro m h
      have hm : "network error" = m := by injection h
      rw [← hm]
      decide
    · intro t u w h
      exact AaiOutcome.noConfusion h
    · intro m h
      exact OpenAiOutcome.noConfusion h
    · intro t s h
      have hm : "fallback text" = t := by
        injection h with h1 h2
      rw [← hm]
      decide
  refine ⟨⟨hs, hp⟩, ?_, ?_⟩
  · exact (claim_C2_amended.1 envAll exPenvAaiRaises exRecordingEng hs hp).1 (by decide)
  · exact claim_C2_amended.2 exDB2 1 ⟨1, exFailedRecording⟩ (by decide) (by decide)
      (by decide) (by decide)

/-! ### C8 — DiarizationMapper (spec-modelled) -/

theorem pickBest_spec (l : List (String × ℚ)) :
    (l = [] ∧ pickBest l = none)
    ∨ ∃ p l₁ l₂, pickBest l = some p ∧ l = l₁ ++ p :: l₂
        ∧ (∀ q ∈ l₁, q.2 < p.2) ∧ (∀ q ∈ l₂, q.2 ≤ p.2) := by
  induction l with
  | nil => exact Or.inl ⟨rfl, rfl⟩
  | cons a as ih =>
      right
      rcases ih with ⟨hnil, hpb⟩ | ⟨p, l₁, l₂, hpb, hsplit, hlt, hle⟩
      · subst hnil
        refine ⟨a, [], [], ?_, rfl, by simp, by simp⟩
        simp [pickBest]
      · by_cases hgt : p.2 > a.2
        · refine ⟨p, a :: l₁, l₂, ?_, by rw [hsplit]; rfl, ?_, hle⟩
          · simp only [pickBest, hpb]
            rw [if_pos hgt]
          · intro q hq
            rcases List.mem_cons.mp hq with rfl | hq'
            · exact hgt
            · exact hlt q hq'
        · refine ⟨a, [], as, ?_, rfl, by simp, ?_⟩
          · simp only [pickBest, hpb]
            rw [if_neg hgt]
          · intro q hq
            have hpa : p.2 ≤ a.2 := le_of_not_lt hgt
            rw [hsplit] at hq
            rcases List.mem_append.mp hq with hq1 | hq2
            · exact le_trans (le_of_lt (hlt q hq1)) hpa
            · rcases List.mem_cons.mp hq2 with rfl | hq3
              · exact hpa
              · exact le_trans (hle q hq3) hpa

theorem lookupTotal_addOverlap (acc : List (String × ℚ)) (lab lab' : String) (v : ℚ) :
    lookupTotal (addOverlap acc lab' v) lab
      = lookupTotal acc lab + (if lab' = lab then v else 0) := by
  induction acc with
  | nil =>
      by_cases h : lab' = lab
      · simp [addOverlap, lookupTotal, h]
      · simp [addOverlap, lookupTotal, h]
  | cons q rest ih =>
      rcases q with ⟨l, w⟩
      by_cases hq : l = lab'
      · simp only [addOverlap, if_pos hq]
        by_cases h2 : l = lab
        · have h3 : lab' = lab := hq.symm.trans h2
          simp [lookupTotal, h2, h3]
        · have h3 : lab' ≠ lab := fun hh => h2 (hq.trans hh)
          simp [lookupTotal, h2, h3]
      · simp only [addOverlap, if_neg hq]
        by_cases h2 : l = lab
        · have h3 : lab' ≠ lab := fun hh => hq (h2.trans hh.symm)
          simp [lookupTotal, h2, h3]
        · simp [lookupTotal, h2, ih]

theorem lookupTotal_overlapTotals_aux (s : TranscriptSegment)
    (turns : List SpeakerTurn) (acc : List (String × ℚ)) (lab : String) :
    lookupTotal
        (turns.foldl (fun a t => addOverlap a t.speaker_label (turnOverlap s t)) acc)
        lab
      = lookupTotal acc lab + labelOverlapSum s turns lab := by
  induction turns generalizing acc with
  | nil => simp [labelOverlapSum]
  | cons t ts ih =>
      rw [List.foldl_cons, ih, lookupTotal_addOverlap]
      by_cases h : t.speaker_label = lab
      · simp [labelOverlapSum, List.filter_cons, h]
        ring
      · simp [labelOverlapSum, List.filter_cons, h]

theorem lookupTotal_overlapTotals (s : TranscriptSegment)
    (turns : List SpeakerTurn) (lab : String) :
    lookupTotal (overlapTotals s turns) lab = labelOverlapSum s turns lab := by
  have h := lookupTotal_overlapTotals_aux s turns [] lab
  simpa [overlapTotals, lookupTotal] using h

/-- C8 (spec-modelled, no DiarizationMapper exists in the source tree): the
dominant-speaker assignment picks a label whose accumulated overlap is
positive and maximal, placed before every strictly-smaller-valued label and
tying labels resolved in favour of the first-encountered one; when no turn
overlaps the segment the assignment is UNKNOWN (none); per-label accumulation
equals the sum of `max(0, min(s.end, t.end) − max(s.start, t.start))` over
that label's turns; and on the concrete segment [10,20] with turns A:[9,15]
and B:[15,21] both overlaps are 5 and the tie goes to A by turn order. -/
theorem claim_C8_dominant_speaker :
    (∀ (s : TranscriptSegment) (turns : List SpeakerTurn),
        dominantSpeakerLabel s turns = none →
        ∀ p ∈ overlapTotals s turns, p.2 ≤ 0)
    ∧ (∀ (s : TranscriptSegment) (turns : List SpeakerTurn) (lab : String),
        dominantSpeakerLabel s turns = some lab →
        ∃ v l₁ l₂, overlapTotals s turns = l₁ ++ (lab, v) :: l₂ ∧ 0 < v
          ∧ (∀ q ∈ l₁, q.2 < v) ∧ (∀ q ∈ l₂, q.2 ≤ v))
    ∧ (∀ (s : TranscriptSegment) (turns : List SpeakerTurn) (lab : String),
        lookupTotal (overlapTotals s turns) lab = labelOverlapSum s turns lab)
    ∧ (turnOverlap exSeg1020 exTurnA = 5 ∧ turnOverlap exSeg1020 exTurnB = 5
        ∧ dominantSpeakerLabel exSeg1020 [exTurnA, exTurnB] = some "A") := by
  have hA : turnOverlap exSeg1020 exTurnA = 5 := by
    norm_num [turnOverlap, exSeg1020, exTurnA, min_def, max_def]
  have hB : turnOverlap exSeg1020 exTurnB = 5 := by
    norm_num [turnOverlap, exSeg1020, exTurnB, min_def, max_def]
  refine ⟨?_, ?_, lookupTotal_overlapTotals, hA, hB, ?_⟩
  · intro s turns h p hp
    rcases pickBest_spec (overlapTotals s turns) with ⟨hnil, _⟩ |
      ⟨⟨ql, qv⟩, l₁, l₂, hpb, hsplit, hlt, hle⟩
    · rw [hnil] at hp
      simp at hp
    · have hq0 : ¬ qv > 0 := by
        intro hgt
        rw [dominantSpeakerLabel, hpb] at h
        dsimp only at h
        rw [if_pos hgt] at h
        exact Option.noConfusion h
      have hq0' : qv ≤ 0 := le_of_not_lt hq0
      rw [hsplit] at hp
      rcases List.mem_append.mp hp with hp1 | hp2
      · exact le_trans (le_of_lt (hlt p hp1)) hq0'
      · rcases List.mem_cons.mp hp2 with rfl | hp3
        · exact hq0'
        · exact le_trans (hle p hp3) hq0'
  · intro s turns lab h
    rcases pickBest_spec (overlapTotals s turns) with ⟨_, hpb⟩ |
      ⟨⟨ql, qv⟩, l₁, l₂, hpb, hsplit, hlt, hle⟩
    · rw [dominantSpeakerLabel, hpb] at h
      exact Option.noConfusion h
    · rw [dominantSpeakerLabel, hpb] at h
      dsimp only at h
      by_cases hv : qv > 0
      · rw [if_pos hv] at h
        injection h with hlab
        subst hlab
        exact ⟨qv, l₁, l₂, hsplit, hv, hlt, hle⟩
      · rw [if_neg hv] at h
        exact Option.noConfusion h
  · have htot : overlapTotals exSeg1020 [exTurnA, exTurnB] = [("A", 5), ("B", 5)] := by
      simp only [overlapTotals, List.foldl_cons, List.foldl_nil, hA, hB]
      rfl
    rw [dominantSpeakerLabel, htot]
    norm_num [pickBest]

/-- C8 witness: the no-overlap clause instantiated at the empty turn list. -/
theorem claim_C8_dominant_speaker_witness :
    dominantSpeakerLabel exSeg1020 [] = none
    ∧ (∀ p ∈ overlapTotals exSeg1020 [], p.2 ≤ 0) :=
  ⟨rfl, claim_C8_dominant_speaker.1 exSeg1020 [] rfl⟩

end KwikMed
